import Mathlib

/-!
Verification development for `adsb2influx.py`: a shallow embedding of the
ADS-B BaseStation message parser/normalizer (`AdsbProcessor.REGEXP_MSG`,
`AdsbProcessor.NORMALIZE_MSG`, `AdsbProcessor.msg`), the aging cache
(`AdsbProcessor.clear`, `AdsbProcessor.age`), the snapshot loop in `main`,
and the InfluxDB line-protocol serializer (`InfluxDB.write`).

Modelling conventions:
* Python dicts become association lists with unique keys; an update of an
  existing key keeps its position, a new key is appended (Python 3.7+
  insertion order).
* Wall-clock `time.time()` becomes an explicit `now : Int` parameter.
* Regex character classes (`\d`, `\w`, `\s`) are modelled over their ASCII
  ranges; `$` matching just before one final trailing newline is modelled by
  stripping a single trailing newline.
* Python `float` values are modelled as exact rationals; no claim inspects
  a float's printed form.
* Exceptions become `Except`/`Option`; the functions return the original
  state whenever the Python code raises before mutating.
-/

/-- The 21 named groups of `AdsbProcessor.REGEXP_MSG` (source order). -/
inductive FieldName where
  | transmission | session | aircraft | hexident | flight
  | gen_date | gen_time | log_date | log_time
  | callsign | altitude | speed | track | latitude | longitude
  | verticalrate | squawk | alert | emergency | spi | onground
deriving DecidableEq, Repr, Fintype

/-- All fields, in the positional order of the regex groups. -/
def fieldList : List FieldName :=
  [FieldName.transmission, FieldName.session, FieldName.aircraft,
   FieldName.hexident, FieldName.flight, FieldName.gen_date,
   FieldName.gen_time, FieldName.log_date, FieldName.log_time,
   FieldName.callsign, FieldName.altitude, FieldName.speed, FieldName.track,
   FieldName.latitude, FieldName.longitude, FieldName.verticalrate,
   FieldName.squawk, FieldName.alert, FieldName.emergency, FieldName.spi,
   FieldName.onground]

/-- Zero-based position of a field among the 21 comma-separated groups
(after the leading literal `MSG`). -/
def fieldIdx0 : FieldName → Nat
  | FieldName.transmission => 0
  | FieldName.session => 1
  | FieldName.aircraft => 2
  | FieldName.hexident => 3
  | FieldName.flight => 4
  | FieldName.gen_date => 5
  | FieldName.gen_time => 6
  | FieldName.log_date => 7
  | FieldName.log_time => 8
  | FieldName.callsign => 9
  | FieldName.altitude => 10
  | FieldName.speed => 11
  | FieldName.track => 12
  | FieldName.latitude => 13
  | FieldName.longitude => 14
  | FieldName.verticalrate => 15
  | FieldName.squawk => 16
  | FieldName.alert => 17
  | FieldName.emergency => 18
  | FieldName.spi => 19
  | FieldName.onground => 20

/-- ASCII decimal digit (regex `\d` over ASCII input). -/
def isPyDigit (c : Char) : Bool := c.isDigit

/-- Character class `[0-9A-F]` of the `hexident` group. -/
def isUpHex (c : Char) : Bool := c.isDigit || ('A' ≤ c && c ≤ 'F')

/-- Regex `\w` (word character) over ASCII input. -/
def isPyWord (c : Char) : Bool := c.isAlphanum || c = '_'

/-- Python whitespace class `\s`. -/
def isPySpace (c : Char) : Bool :=
  c = ' ' || c = '\t' || c = '\n' || c = '\r' || c = '\x0b' || c = '\x0c'

/-- Split a character list on a separator character; mirrors how the
comma-delimited regex carves the line into groups (no group's character
class contains a comma, so a full regex match is exactly a 22-way split
whose parts match the per-group classes). -/
def splitOnChar (sep : Char) : List Char → List (List Char)
  | [] => [[]]
  | c :: rest =>
    if c = sep then [] :: splitOnChar sep rest
    else
      match splitOnChar sep rest with
      | g :: gs => (c :: g) :: gs
      | [] => [[c]]

/-- Python's `$` (no MULTILINE) also matches just before a single final
newline; strip that newline so a strict end-of-string check is equivalent. -/
def stripTrailingNewline (cs : List Char) : List Char :=
  match cs.getLast? with
  | some '\n' => cs.dropLast
  | _ => cs

/-- `p*` arity: every character of `s` satisfies `p`. -/
def allChars (p : Char → Bool) (s : String) : Bool := s.toList.all p

/-- `p+` arity: `s` is non-empty and every character satisfies `p`. -/
def someChars (p : Char → Bool) (s : String) : Bool :=
  !s.toList.isEmpty && s.toList.all p

/-- Per-group character class and arity of `AdsbProcessor.REGEXP_MSG`. -/
def fieldPattern : FieldName → String → Bool
  | FieldName.transmission, s => s.toList.length == 1 && s.toList.all isPyDigit
  | FieldName.session, s => someChars isPyDigit s
  | FieldName.aircraft, s => someChars isPyDigit s
  | FieldName.hexident, s => someChars isUpHex s
  | FieldName.flight, s => someChars isPyDigit s
  | FieldName.gen_date, s => someChars (fun c => isPyDigit c || c = '/') s
  | FieldName.gen_time, s => someChars (fun c => isPyDigit c || c = ':' || c = '.') s
  | FieldName.log_date, s => someChars (fun c => isPyDigit c || c = '/') s
  | FieldName.log_time, s => someChars (fun c => isPyDigit c || c = ':' || c = '.') s
  | FieldName.callsign, s => allChars (fun c => isPyWord c || isPySpace c) s
  | FieldName.altitude, s => allChars isPyDigit s
  | FieldName.speed, s => allChars isPyDigit s
  | FieldName.track, s => allChars (fun c => isPyDigit c || c = '-') s
  | FieldName.latitude, s => allChars (fun c => isPyDigit c || c = '-' || c = '.') s
  | FieldName.longitude, s => allChars (fun c => isPyDigit c || c = '-' || c = '.') s
  | FieldName.verticalrate, s => allChars (fun c => isPyDigit c || c = '-') s
  | FieldName.squawk, s => allChars isPyDigit s
  | FieldName.alert, s => allChars (fun c => isPyDigit c || c = '-') s
  | FieldName.emergency, s => allChars (fun c => isPyDigit c || c = '-') s
  | FieldName.spi, s => allChars (fun c => isPyDigit c || c = '-') s
  | FieldName.onground, s => allChars (fun c => isPyDigit c || c = '-') s

/-- Group string at position `f` of a split line (first part is `MSG`). -/
def groupOf (parts : List String) (f : FieldName) : String :=
  (parts.drop 1).getD (fieldIdx0 f) ""

/-- `re.match(REGEXP_MSG, line)`: the full anchored match of the fixed
22-part comma-delimited grammar, returning all 21 group strings
(`m.groupdict()` before the empty-value filter). -/
def matchGroups (line : String) : Option (FieldName → String) :=
  let parts := (splitOnChar ',' (stripTrailingNewline line.toList)).map String.mk
  if parts.length == 22 && (parts.headD "" == "MSG")
      && fieldList.all (fun f => fieldPattern f (groupOf parts f)) then
    some (fun f => groupOf parts f)
  else none

/-- `{k: v for k, v in m.groupdict().items() if v}`: group strings with the
empty (falsy) values dropped. -/
def parseRaw (line : String) : Option (FieldName → Option String) :=
  (matchGroups line).map (fun ga f => if ga f = "" then none else some (ga f))

/-- A normalized field value: Python `int`, `float`, `str`, or `bool`. -/
inductive PValue where
  | int (i : Int)
  | float (q : Rat)
  | str (s : String)
  | bool (b : Bool)
deriving DecidableEq, Repr

/-- A normalized message, keyed by field; absent fields map to `none`. -/
abbrev ParsedFields := FieldName → Option PValue

/-- Decimal digits to a natural number. -/
def digitsToNat (cs : List Char) : Nat :=
  cs.foldl (fun n c => 10 * n + (c.toNat - '0'.toNat)) 0

/-- Python `int(v)` restricted to the character sets the grammar can
produce for integer fields (digits with an optional leading minus sign);
`none` models the `ValueError` Python raises otherwise. -/
def pyInt (s : String) : Option Int :=
  match s.toList with
  | [] => none
  | '-' :: rest =>
    if !rest.isEmpty && rest.all isPyDigit then some (-(digitsToNat rest : Int))
    else none
  | cs => if cs.all isPyDigit then some (digitsToNat cs : Int) else none

/-- Magnitude part of `float(v)`: `d+ (. d*)?` or `. d+` (or `d+ .`). -/
def pyFloatMag (cs : List Char) : Option Rat :=
  match splitOnChar '.' cs with
  | [a] => if !a.isEmpty && a.all isPyDigit then some ((digitsToNat a : Int) : Rat) else none
  | [a, b] =>
    if (!a.isEmpty || !b.isEmpty) && a.all isPyDigit && b.all isPyDigit then
      some (((digitsToNat a : Int) : Rat) + ((digitsToNat b : Int) : Rat) / ((10 : Rat) ^ b.length))
    else none
  | _ => none

/-- Python `float(v)` restricted to the `[\d\-\.]` character set of the
latitude/longitude groups, as an exact rational; `none` models
`ValueError`. -/
def pyFloat (s : String) : Option Rat :=
  match s.toList with
  | '-' :: rest => (pyFloatMag rest).map (fun q => -q)
  | cs => pyFloatMag cs

/-- Python `str.strip()` (with the whitespace set of `isPySpace`). -/
def pyStrip (s : String) : String :=
  String.mk (((s.toList.dropWhile isPySpace).reverse.dropWhile isPySpace).reverse)

/-- The per-field lambda of `AdsbProcessor.NORMALIZE_MSG`; fields missing
from that table (hexident, dates, times, squawk) pass through as strings.
`none` models the uncaught `ValueError` of `int()`/`float()`. -/
def normalizeField (f : FieldName) (v : String) : Option PValue :=
  match f with
  | FieldName.transmission => (pyInt v).map PValue.int
  | FieldName.session => (pyInt v).map PValue.int
  | FieldName.aircraft => (pyInt v).map PValue.int
  | FieldName.flight => (pyInt v).map PValue.int
  | FieldName.callsign => some (PValue.str (pyStrip v))
  | FieldName.altitude => (pyInt v).map PValue.int
  | FieldName.speed => (pyInt v).map PValue.int
  | FieldName.track => (pyInt v).map PValue.int
  | FieldName.latitude => (pyFloat v).map PValue.float
  | FieldName.longitude => (pyFloat v).map PValue.float
  | FieldName.verticalrate => (pyInt v).map PValue.int
  | FieldName.alert => some (PValue.bool (v == "-1"))
  | FieldName.emergency => some (PValue.bool (v == "-1"))
  | FieldName.spi => some (PValue.bool (v == "-1"))
  | FieldName.onground => some (PValue.bool (v == "-1"))
  | _ => some (PValue.str v)

/-- Errors `AdsbProcessor.msg` can raise: the explicit
`AdsbError('Message has wrong format!')` for a regex mismatch, an uncaught
`ValueError` from a conversion lambda, and an uncaught `KeyError` from
`message['hexident']`. -/
inductive AdsbErr where
  | malformed (raw : String)
  | valueError
  | keyError
deriving DecidableEq, Repr

/-- `AdsbProcessor.__normalize_msg`: apply each conversion lambda to the
fields present in the message; fails if any lambda raises. -/
def normalizeMsg (g : FieldName → Option String) : Except AdsbErr ParsedFields :=
  if fieldList.all (fun f =>
      match g f with
      | none => true
      | some v => (normalizeField f v).isSome) then
    Except.ok (fun f => (g f).bind (normalizeField f))
  else Except.error AdsbErr.valueError

/-- One entry of `AdsbProcessor.aircrafts`: the merged field dict plus its
`'count'` key (which is never a parsed field name, so it is modelled as a
separate component of the record). -/
structure AircraftRecord where
  fields : ParsedFields
  count : Int

instance : DecidableEq AircraftRecord := fun a b =>
  decidable_of_iff (a.fields = b.fields ∧ a.count = b.count)
    (by cases a; cases b; simp)

/-- The processor state: `self.aircrafts` and `self.aircrafts_age`, as
insertion-ordered association lists (Python dicts). -/
structure Cache where
  aircrafts : List (String × AircraftRecord)
  aircrafts_age : List (String × Int)
deriving DecidableEq

/-- The empty processor state created by `AdsbProcessor.__init__`. -/
def cacheEmpty : Cache := { aircrafts := [], aircrafts_age := [] }

/-- Python dict lookup `d.get(k)` on an association list. -/
def dlookup {α : Type} (k : String) : List (String × α) → Option α
  | [] => none
  | p :: rest => if p.1 = k then some p.2 else dlookup k rest

/-- Python dict assignment `d[k] = v`: update in place if the key exists,
append otherwise. -/
def dinsert {α : Type} (k : String) (v : α) : List (String × α) → List (String × α)
  | [] => [(k, v)]
  | p :: rest => if p.1 = k then (p.1, v) :: rest else p :: dinsert k v rest

/-- Python dict deletion `del d[k]` (dict keys are unique, so removing
every occurrence agrees with removing the one binding). -/
def derase {α : Type} (k : String) : List (String × α) → List (String × α)
  | [] => []
  | p :: rest => if p.1 = k then derase k rest else p :: derase k rest

/-- `AdsbProcessor.age`: seconds since last seen,
`time.time() - self.aircrafts_age.get(hexident, 0)`. -/
def ageOf (c : Cache) (now : Int) (h : String) : Int :=
  now - (dlookup h c.aircrafts_age).getD 0

/-- Field-by-field `dict.update(message)`: keys present in the new message
overwrite, all other stored keys keep their prior value. -/
def mergeFields (old new : ParsedFields) : ParsedFields :=
  fun f =>
    match new f with
    | some v => some v
    | none => old f

/-- Lines 185-192 of `AdsbProcessor.msg`: record the age, then insert a
fresh record with `count = 1` or field-merge into the existing record and
increment its `count`. `keyError` models the `KeyError` Python would raise
if `'hexident'` were absent (never reachable from a parsed line). -/
def mergeMsg (c : Cache) (now : Int) (m : ParsedFields) : Except AdsbErr Cache :=
  match m FieldName.hexident with
  | some (PValue.str hex) =>
    let ages := dinsert hex now c.aircrafts_age
    match dlookup hex c.aircrafts with
    | none =>
      Except.ok { aircrafts := dinsert hex { fields := m, count := 1 } c.aircrafts,
                  aircrafts_age := ages }
    | some r =>
      Except.ok { aircrafts := dinsert hex { fields := mergeFields r.fields m,
                                             count := r.count + 1 } c.aircrafts,
                  aircrafts_age := ages }
  | _ => Except.error AdsbErr.keyError

/-- `AdsbProcessor.msg`: parse, normalize, then merge. Every raise happens
before any mutation, so an error leaves the state exactly as it was. -/
def msgRun (c : Cache) (now : Int) (line : String) : Option AdsbErr × Cache :=
  match parseRaw line with
  | none => (some (AdsbErr.malformed line), c)
  | some g =>
    match normalizeMsg g with
    | Except.error e => (some e, c)
    | Except.ok m =>
      match mergeMsg c now m with
      | Except.error e => (some e, c)
      | Except.ok c' => (none, c')

/-- Body of the first loop of `AdsbProcessor.clear` for one hexident drawn
from the age-key snapshot: drop an orphaned age entry, or delete both
entries when the record is older than `maxAge`. The `none` age case cannot
occur for a key of the snapshot (keys are unique and only its own
iteration deletes it). -/
def sweepStep (now maxAge : Int) (c : Cache) (h : String) : Cache :=
  match dlookup h c.aircrafts with
  | none => { c with aircrafts_age := derase h c.aircrafts_age }
  | some _ =>
    match dlookup h c.aircrafts_age with
    | some t =>
      if now - t > maxAge then
        { aircrafts := derase h c.aircrafts, aircrafts_age := derase h c.aircrafts_age }
      else c
    | none => c

/-- First loop of `AdsbProcessor.clear`: iterate over
`list(self.aircrafts_age.keys())` and expire entries (the spec's `sweep`). -/
def sweep (c : Cache) (now maxAge : Int) : Cache :=
  (c.aircrafts_age.map Prod.fst).foldl (sweepStep now maxAge) c

/-- Second loop of `AdsbProcessor.clear`: set every surviving record's
`'count'` to 0 (the spec's `reset_counts`). -/
def resetCounts (c : Cache) : Cache :=
  { c with aircrafts := c.aircrafts.map (fun p => (p.1, { fields := p.2.fields, count := 0 })) }

/-- `AdsbProcessor.clear(age)`: the expiry sweep followed by the count
reset, exactly the two sequential loops of the source. -/
def clearOp (c : Cache) (now maxAge : Int) : Cache :=
  resetCounts (sweep c now maxAge)

/-- Pointwise effect of the sweep at one hexident, on the pair
(record entry, age entry). -/
def sweepPoint (now maxAge : Int) :
    Option AircraftRecord → Option Int → Option AircraftRecord × Option Int
  | none, _ => (none, none)
  | some r, none => (some r, none)
  | some r, some t => if now - t > maxAge then (none, none) else (some r, some t)

/-- Numeric value of an ASCII digit. -/
def digitVal (c : Char) : Nat := c.toNat - '0'.toNat

/-- `%Y` of `time.strptime`: exactly four digits. -/
def read4Digits : List Char → Option (Nat × List Char)
  | a :: b :: c :: d :: rest =>
    if a.isDigit && b.isDigit && c.isDigit && d.isDigit then
      some (((digitVal a * 10 + digitVal b) * 10 + digitVal c) * 10 + digitVal d, rest)
    else none
  | _ => none

/-- A one-or-two digit numeric directive of `time.strptime` (its regex
alternations such as `1[0-2]|0[1-9]|[1-9]`): two digits are taken when
available and must lie in the directive's range; otherwise one digit.
Every directive in the format at hand is followed by a non-digit literal
or the end, so regex backtracking never rescues a failed two-digit match
and this greedy reading is equivalent. -/
def readNum2 (lo hi : Nat) : List Char → Option (Nat × List Char)
  | a :: b :: rest =>
    if a.isDigit && b.isDigit then
      let n := digitVal a * 10 + digitVal b
      if lo ≤ n ∧ n ≤ hi then some (n, rest) else none
    else if a.isDigit then
      let n := digitVal a
      if lo ≤ n ∧ n ≤ hi then some (n, b :: rest) else none
    else none
  | [a] =>
    if a.isDigit then
      let n := digitVal a
      if lo ≤ n ∧ n ≤ hi then some (n, []) else none
    else none
  | [] => none

/-- A literal character of the strptime format. -/
def readLit (c : Char) : List Char → Option (List Char)
  | x :: rest => if x = c then some rest else none
  | [] => none

/-- `%f`: one to six digits, which must also consume the whole remainder
(`strptime` raises on unconverted trailing data). -/
def readFrac (cs : List Char) : Option Unit :=
  if !cs.isEmpty && cs.length ≤ 6 && cs.all Char.isDigit then some () else none

/-- Leap year, proleptic Gregorian (as `datetime`/`calendar`). -/
def isLeap (y : Nat) : Bool := (y % 4 == 0 && y % 100 != 0) || y % 400 == 0

/-- Days in a month (used by `datetime.date`'s validity check). -/
def daysInMonth (y mo : Nat) : Nat :=
  if mo = 2 then (if isLeap y then 29 else 28)
  else if mo = 4 ∨ mo = 6 ∨ mo = 9 ∨ mo = 11 then 30 else 31

/-- The `%Y/%m/%d` prefix of the strptime format: year, month, day and
the unconsumed remainder. -/
def strptimeDate (cs : List Char) : Option (Nat × Nat × Nat × List Char) :=
  (read4Digits cs).bind fun py =>
  (readLit '/' py.2).bind fun r1 =>
  (readNum2 1 12 r1).bind fun pm =>
  (readLit '/' pm.2).bind fun r2 =>
  (readNum2 1 31 r2).bind fun pd =>
  some (py.1, pm.1, pd.1, pd.2)

/-- The `%H:%M:%S.%f` suffix of the strptime format: hour, minute, second
(`%f` must consume the whole remainder). -/
def strptimeTime (cs : List Char) : Option (Nat × Nat × Nat) :=
  (readNum2 0 23 cs).bind fun ph =>
  (readLit ':' ph.2).bind fun r4 =>
  (readNum2 0 59 r4).bind fun pmi =>
  (readLit ':' pmi.2).bind fun r5 =>
  (readNum2 0 61 r5).bind fun ps =>
  (readLit '.' ps.2).bind fun r6 =>
  (readFrac r6).bind fun _ =>
  some (ph.1, pmi.1, ps.1)

/-- `time.strptime(s, '%Y/%m/%d %H:%M:%S.%f')`: the six calendar fields,
including the calendar-validity check `strptime` performs by constructing
`datetime.date(year, month, day)` (which rejects year 0 and an
out-of-range day). -/
def strptimeGen (s : String) : Option (Nat × Nat × Nat × Nat × Nat × Nat) :=
  (strptimeDate s.toList).bind fun pdate =>
  (readLit ' ' pdate.2.2.2).bind fun r3 =>
  (strptimeTime r3).bind fun ptime =>
  if 1 ≤ pdate.1 ∧ pdate.2.2.1 ≤ daysInMonth pdate.1 pdate.2.1 then
    some (pdate.1, pdate.2.1, pdate.2.2.1, ptime.1, ptime.2.1, ptime.2.2)
  else none

/-- Days before January 1 of year `y`, proleptic Gregorian
(`datetime.date(y, 1, 1).toordinal() - 1`). -/
def daysBeforeYear (y : Nat) : Int :=
  let n : Int := (y : Int) - 1
  365 * n + n / 4 - n / 100 + n / 400

/-- Days in year `y` strictly before month `mo`. -/
def monthDaysBefore (y mo : Nat) : Nat :=
  (List.range (mo - 1)).foldl (fun acc i => acc + daysInMonth y (i + 1)) 0

/-- `datetime.date(y, mo, d).toordinal()`. -/
def toOrdinal (y mo d : Nat) : Int :=
  daysBeforeYear y + (monthDaysBefore y mo : Int) + (d : Int)

/-- `calendar.timegm` on the parsed struct: UTC epoch seconds computed
from `date(year, month, 1).toordinal()` plus the remaining fields
(719163 is the ordinal of 1970-01-01). -/
def timegm (y mo d hh mi ss : Nat) : Int :=
  let days := toOrdinal y mo 1 - 719163 + (d : Int) - 1
  ((days * 24 + (hh : Int)) * 60 + (mi : Int)) * 60 + (ss : Int)

/-- Lines 369-371 of `main`:
`int(calendar.timegm(time.strptime('{} {}'.format(gen_date, gen_time), '%Y/%m/%d %H:%M:%S.%f')))`;
`none` models the uncaught `ValueError`. -/
def deriveTimestamp (d t : String) : Option Int :=
  (strptimeGen (d ++ " " ++ t)).map fun p =>
    timegm p.1 p.2.1 p.2.2.1 p.2.2.2.1 p.2.2.2.2.1 p.2.2.2.2.2

/-- Simple decimal-pair representation standing in for Python's float
`str()`; no claim inspects a float's printed form. -/
def ratDecimalRepr (q : Rat) : String := toString q.num ++ "/" ++ toString q.den

/-- Python `'{}'.format(v)` for a normalized value (floats approximated,
see `ratDecimalRepr`; the values reaching string positions in the source
are always `str`). -/
def pvStr : PValue → String
  | PValue.int i => toString i
  | PValue.float q => ratDecimalRepr q
  | PValue.str s => s
  | PValue.bool b => if b then "True" else "False"

/-- One element of the `to_send` list built in `main`: the three tags and
the insertion-ordered field dict (values still optional; `None` values are
skipped later by `InfluxDB.write`). -/
structure SendEntry where
  tagHex : String
  tagCallsign : String
  tagSquawk : String
  fields : List (String × Option PValue)
deriving DecidableEq

/-- Failure modes of building one `to_send` entry: a missing
`gen_date`/`gen_time` key (`KeyError`) or an unparsable one (`ValueError`
from `strptime`); both are uncaught in the source. -/
inductive SnapErr where
  | missingGen
  | badTimestamp
deriving DecidableEq, Repr

/-- Lines 358-394 of `main`, for one `(hexident, msg)` pair: skip when
callsign or squawk is absent, skip when the age exceeds the interval,
otherwise derive the timestamp and build the entry (or fail). -/
def snapshotEntry (c : Cache) (now interval : Int) (h : String)
    (r : AircraftRecord) : Except SnapErr (Option SendEntry) :=
  match r.fields FieldName.callsign, r.fields FieldName.squawk with
  | some cv, some sv =>
    if now - (dlookup h c.aircrafts_age).getD 0 > interval then Except.ok none
    else
      match r.fields FieldName.gen_date, r.fields FieldName.gen_time with
      | some dv, some tv =>
        match deriveTimestamp (pvStr dv) (pvStr tv) with
        | some ts =>
          Except.ok (some
            { tagHex := h
              tagCallsign := pvStr cv
              tagSquawk := pvStr sv
              fields :=
                [("generated", some (PValue.int ts)),
                 ("altitude", r.fields FieldName.altitude),
                 ("speed", r.fields FieldName.speed),
                 ("track", r.fields FieldName.track),
                 ("latitude", r.fields FieldName.latitude),
                 ("longitude", r.fields FieldName.longitude),
                 ("verticalrate", r.fields FieldName.verticalrate),
                 ("alert", r.fields FieldName.alert),
                 ("emergency", r.fields FieldName.emergency),
                 ("spi", r.fields FieldName.spi),
                 ("onground", r.fields FieldName.onground),
                 ("count", some (PValue.int r.count))] })
        | none => Except.error SnapErr.badTimestamp
      | _, _ => Except.error SnapErr.missingGen
  | _, _ => Except.ok none

/-- The `for hexident, msg in ap.items()` loop of the emission cycle: an
uncaught per-record failure aborts the whole cycle. -/
def snapshotGo (c : Cache) (now interval : Int) :
    List (String × AircraftRecord) → Except SnapErr (List SendEntry)
  | [] => Except.ok []
  | p :: rest =>
    match snapshotEntry c now interval p.1 p.2 with
    | Except.error e => Except.error e
    | Except.ok none => snapshotGo c now interval rest
    | Except.ok (some en) =>
      match snapshotGo c now interval rest with
      | Except.error e => Except.error e
      | Except.ok b => Except.ok (en :: b)

/-- The whole `to_send` construction of one emission cycle. -/
def snapshot (c : Cache) (now interval : Int) : Except SnapErr (List SendEntry) :=
  snapshotGo c now interval c.aircrafts

/-- The timestamp-derivation attempt for a record, `none` when the entry
would abort the cycle (missing or unparsable `gen_date`/`gen_time`). -/
def genTs (r : AircraftRecord) : Option Int :=
  match r.fields FieldName.gen_date, r.fields FieldName.gen_time with
  | some dv, some tv => deriveTimestamp (pvStr dv) (pvStr tv)
  | _, _ => none

/-- Python `v == -1` for a `bool` `v`: booleans compare as their integer
value (`True == 1`, `False == 0`), so this is never true. -/
def pyBoolAsInt (b : Bool) : Int := if b then 1 else 0

/-- One `'{}={}'`/`'{}={}i'` item of `InfluxDB.write`'s field list, by
value type exactly as the source's `type(v) is ...` chain: booleans use
`'t' if v == -1 else 'f'`, ints get an `i` suffix, floats print plain,
strings are double-quoted. -/
def serializeFieldKV (k : String) (v : PValue) : String :=
  match v with
  | PValue.bool b => k ++ "=" ++ (if pyBoolAsInt b == -1 then "t" else "f")
  | PValue.int i => k ++ "=" ++ toString i ++ "i"
  | PValue.float q => k ++ "=" ++ ratDecimalRepr q
  | PValue.str s => k ++ "=" ++ "\"" ++ s ++ "\""

/-- The field segment of one line-protocol record: `None` values are
skipped entirely, the rest serialized per type. -/
def serializeFields (fs : List (String × Option PValue)) : List String :=
  fs.filterMap (fun p => p.2.map (serializeFieldKV p.1))

/-- One full line of `InfluxDB.write`:
`measurement,tags fields timestamp` (the `to_send` dicts carry no
`'timestamp'` key, so the line timestamp is `int(time.time())` at write
time, passed here as `writeNow`). -/
def serializeEntry (measurement : String) (writeNow : Int) (e : SendEntry) : String :=
  measurement ++ ","
    ++ "hexident=" ++ e.tagHex ++ ",callsign=" ++ e.tagCallsign ++ ",squawk=" ++ e.tagSquawk
    ++ " " ++ String.intercalate "," (serializeFields e.fields)
    ++ " " ++ toString writeNow

/-- The cache-mutating operations the program performs, for stating
reachability invariants: a parsed-and-merged feed line and a `clear`. -/
inductive CacheOp where
  | msg (now : Int) (line : String)
  | clear (now : Int) (maxAge : Int)
deriving DecidableEq

/-- Apply one operation to the processor state. -/
def applyOp (c : Cache) : CacheOp → Cache
  | CacheOp.msg now line => (msgRun c now line).2
  | CacheOp.clear now maxAge => clearOp c now maxAge

/-- Run a sequence of operations from the freshly initialized processor. -/
def runOps (ops : List CacheOp) : Cache :=
  ops.foldl applyOp cacheEmpty

/-- Python truthiness of an `Except`: did the call succeed? -/
def exceptIsOk {ε α : Type} : Except ε α → Bool
  | Except.ok _ => true
  | Except.error _ => false

/-- The `ok` payload of an `Except`, or a default. -/
def exceptOkD {ε α : Type} (e : Except ε α) (d : α) : α :=
  match e with
  | Except.ok a => a
  | Except.error _ => d

/-- Did building one `to_send` entry succeed and produce a record? -/
def isOkSome {ε α : Type} : Except ε (Option α) → Bool
  | Except.ok (some _) => true
  | _ => false

/-- A placeholder `to_send` entry (used only as a list default). -/
def entryDflt : SendEntry :=
  { tagHex := "", tagCallsign := "", tagSquawk := "", fields := [] }

/-- A well-formed feed line (the end-to-end scenario of the spec). -/
def lineGood : String :=
  "MSG,3,1,1,ABC123,1,2024/01/01,10:00:00.000,2024/01/01,10:00:00.000,TEST123,5000,250,90,51.5,-0.1,0,1234,0,0,0,0"

/-- A feed line that matches the grammar (`gen_date` is `[0-9/]+`) but whose
generated date `////` cannot be parsed by strptime at emission time. -/
def lineBadDate : String :=
  "MSG,3,1,1,BAD001,1,////,10:00:00.000,2024/01/01,10:00:00.000,BADFLT,5000,250,90,51.5,-0.1,0,7700,0,0,0,0"

/-- A line that does not match the message grammar. -/
def lineJunk : String := "this is not a msg"

/-- The reachable cache holding one record with an unparsable generated
date (`BAD001`) and one fully well-formed record (`ABC123`). -/
def cacheSix : Cache := (msgRun (msgRun cacheEmpty 5 lineBadDate).2 6 lineGood).2

/-- The `BAD001` record of `cacheSix`. -/
def recBadSix : AircraftRecord :=
  (dlookup "BAD001" cacheSix.aircrafts).getD { fields := fun _ => none, count := 0 }

/-- A small parsed-fields map with a hex identity and one telemetry field. -/
def mEx : ParsedFields := fun f =>
  match f with
  | FieldName.hexident => some (PValue.str "ABC123")
  | FieldName.altitude => some (PValue.int 5000)
  | _ => none

/-- A record with no parsed fields (aged-out sweep witness). -/
def recOld : AircraftRecord := { fields := fun _ => none, count := 3 }

/-- A record carrying only a callsign (fresh sweep witness). -/
def recNew : AircraftRecord :=
  { fields := fun f =>
      match f with
      | FieldName.callsign => some (PValue.str "NEWFLT")
      | _ => none,
    count := 1 }

/-- A cache with one stale aircraft, one fresh aircraft, and one orphaned
age entry. -/
def cacheFour : Cache :=
  { aircrafts := [("OLD1", recOld), ("NEW1", recNew)],
    aircrafts_age := [("OLD1", 10), ("NEW1", 95), ("ORPH", 50)] }

/-- A record with callsign, squawk and parsable generated date/time. -/
def recGood : AircraftRecord :=
  { fields := fun f =>
      match f with
      | FieldName.callsign => some (PValue.str "TEST123")
      | FieldName.squawk => some (PValue.str "1234")
      | FieldName.gen_date => some (PValue.str "2024/01/01")
      | FieldName.gen_time => some (PValue.str "10:00:00.000")
      | FieldName.altitude => some (PValue.int 5000)
      | _ => none,
    count := 2 }

/-- A record lacking both callsign and squawk. -/
def recNoCS : AircraftRecord :=
  { fields := fun f =>
      match f with
      | FieldName.gen_date => some (PValue.str "2024/01/01")
      | FieldName.gen_time => some (PValue.str "10:00:00.000")
      | _ => none,
    count := 1 }

/-- A record with a callsign but no squawk. -/
def recOnlyCS : AircraftRecord :=
  { fields := fun f =>
      match f with
      | FieldName.callsign => some (PValue.str "ONLY")
      | FieldName.gen_date => some (PValue.str "2024/01/01")
      | FieldName.gen_time => some (PValue.str "10:00:00.000")
      | _ => none,
    count := 1 }

/-- Snapshot-filter scenario: no identity, stale, and emitted aircraft. -/
def cacheFive : Cache :=
  { aircrafts := [("NOCS", recNoCS), ("STALE", recGood), ("GOOD1", recGood)],
    aircrafts_age := [("NOCS", 95), ("STALE", 10), ("GOOD1", 95)] }

/-- The batch the emission cycle serializes from `cacheFive`. -/
def batchFive : List SendEntry := exceptOkD (snapshot cacheFive 100 60) []

/-- The single emitted entry of `batchFive`. -/
def entryFive : SendEntry := batchFive.getD 0 entryDflt

/-- Callsign-without-squawk scenario. -/
def cacheTen : Cache :=
  { aircrafts := [("ONLYCS", recOnlyCS), ("GOOD2", recGood)],
    aircrafts_age := [("ONLYCS", 95), ("GOOD2", 95)] }

/-- The batch the emission cycle serializes from `cacheTen`. -/
def batchTen : List SendEntry := exceptOkD (snapshot cacheTen 100 60) []

/-- The single emitted entry of `batchTen`. -/
def entryTen : SendEntry := batchTen.getD 0 entryDflt

/-- An operation sequence exercising both a merge and a clear. -/
def opsEx : List CacheOp := [CacheOp.msg 5 lineGood, CacheOp.clear 6 100]

/-- The group strings the grammar extracts from `lineGood`. -/
def gaGood : FieldName → String := (matchGroups lineGood).getD (fun _ => "")

/-- The record map and the age map agree on which identities they track. -/
def lockstep (c : Cache) : Prop :=
  ∀ h, (dlookup h c.aircrafts).isSome = true → (dlookup h c.aircrafts_age).isSome = true

theorem dlookup_dinsert_self {α : Type} (k : String) (v : α) (l : List (String × α)) :
    dlookup k (dinsert k v l) = some v := by
  induction l with
  | nil => simp [dinsert, dlookup]
  | cons p rest ih =>
    by_cases hp : p.1 = k
    · simp [dinsert, hp, dlookup]
    · simp [dinsert, hp, dlookup, ih]

theorem dlookup_dinsert_ne {α : Type} (k k' : String) (v : α) (l : List (String × α))
    (hne : k' ≠ k) : dlookup k' (dinsert k v l) = dlookup k' l := by
  have hkk : ¬k = k' := fun h => hne h.symm
  induction l with
  | nil => simp [dinsert, dlookup, hkk]
  | cons p rest ih =>
    by_cases hp : p.1 = k
    · simp only [dinsert, hp, if_pos]
      simp only [dlookup]
      rw [hp]
      simp [hkk]
    · simp only [dinsert, hp, if_neg, not_false_iff]
      simp only [dlookup, ih]

theorem dlookup_derase_self {α : Type} (k : String) (l : List (String × α)) :
    dlookup k (derase k l) = none := by
  induction l with
  | nil => simp [derase, dlookup]
  | cons p rest ih =>
    by_cases hp : p.1 = k
    · simp [derase, hp, ih]
    · simp [derase, hp, dlookup, ih]

theorem dlookup_derase_ne {α : Type} (k k' : String) (l : List (String × α))
    (hne : k' ≠ k) : dlookup k' (derase k l) = dlookup k' l := by
  have hkk : ¬k = k' := fun h => hne h.symm
  induction l with
  | nil => simp [derase]
  | cons p rest ih =>
    by_cases hp : p.1 = k
    · simp only [derase, hp, if_pos]
      rw [ih]
      simp only [dlookup]
      rw [hp]
      simp [hkk]
    · simp [derase, hp, dlookup, ih]

theorem dlookup_map_val {α β : Type} (g : α → β) (k : String) (l : List (String × α)) :
    dlookup k (l.map (fun p => (p.1, g p.2))) = (dlookup k l).map g := by
  induction l with
  | nil => simp [dlookup]
  | cons p rest ih =>
    by_cases hp : p.1 = k
    · simp [dlookup, hp]
    · simp [dlookup, hp, ih]

theorem dlookup_eq_none_of_not_mem_keys {α : Type} (k : String) (l : List (String × α))
    (hk : k ∉ l.map Prod.fst) : dlookup k l = none := by
  induction l with
  | nil => rfl
  | cons p rest ih =>
    simp only [List.map_cons, List.mem_cons, not_or] at hk
    have hp : p.1 ≠ k := fun h => hk.1 h.symm
    simp [dlookup, hp, ih hk.2]

theorem dlookup_of_mem_nodup {α : Type} (k : String) (v : α) (l : List (String × α))
    (hnd : (l.map Prod.fst).Nodup) (hmem : (k, v) ∈ l) : dlookup k l = some v := by
  induction l with
  | nil => cases hmem
  | cons p rest ih =>
    simp only [List.map_cons, List.nodup_cons] at hnd
    rcases List.mem_cons.mp hmem with heq | htl
    · rw [← heq]
      simp [dlookup]
    · have hp : p.1 ≠ k := by
        intro h
        exact hnd.1 (h ▸ (List.mem_map.mpr ⟨(k, v), htl, rfl⟩))
      simp [dlookup, hp, ih hnd.2 htl]

theorem sweepStep_lookup_other (now maxAge : Int) (c : Cache) (k h : String) (hne : h ≠ k) :
    dlookup h (sweepStep now maxAge c k).aircrafts = dlookup h c.aircrafts ∧
    dlookup h (sweepStep now maxAge c k).aircrafts_age = dlookup h c.aircrafts_age := by
  unfold sweepStep
  cases hrec : dlookup k c.aircrafts with
  | none => exact ⟨rfl, dlookup_derase_ne k h c.aircrafts_age hne⟩
  | some r =>
    cases hage : dlookup k c.aircrafts_age with
    | none => exact ⟨rfl, rfl⟩
    | some t =>
      dsimp only
      by_cases hst : now - t > maxAge
      · rw [if_pos hst]
        exact ⟨dlookup_derase_ne k h c.aircrafts hne,
               dlookup_derase_ne k h c.aircrafts_age hne⟩
      · rw [if_neg hst]
        exact ⟨rfl, rfl⟩

theorem sweepStep_lookup_self (now maxAge : Int) (c : Cache) (h : String) :
    (dlookup h (sweepStep now maxAge c h).aircrafts,
     dlookup h (sweepStep now maxAge c h).aircrafts_age) =
    sweepPoint now maxAge (dlookup h c.aircrafts) (dlookup h c.aircrafts_age) := by
  unfold sweepStep
  cases hrec : dlookup h c.aircrafts with
  | none =>
    simp only [sweepPoint, hrec, dlookup_derase_self]
  | some r =>
    cases hage : dlookup h c.aircrafts_age with
    | none => simp [sweepPoint, hrec, hage]
    | some t =>
      by_cases hst : now - t > maxAge
      · simp [sweepPoint, hst, dlookup_derase_self]
      · simp [sweepPoint, hrec, hage, hst]

theorem sweepPoint_idem (now maxAge : Int) (r : Option AircraftRecord) (a : Option Int) :
    sweepPoint now maxAge (sweepPoint now maxAge r a).1 (sweepPoint now maxAge r a).2 =
    sweepPoint now maxAge r a := by
  cases r with
  | none => simp [sweepPoint]
  | some r0 =>
    cases a with
    | none => simp [sweepPoint]
    | some t =>
      by_cases hst : now - t > maxAge
      · simp [sweepPoint, hst]
      · simp [sweepPoint, hst]

theorem sweepFold_lookup (now maxAge : Int) (ks : List String) (c : Cache) (h : String) :
    (dlookup h (ks.foldl (sweepStep now maxAge) c).aircrafts,
     dlookup h (ks.foldl (sweepStep now maxAge) c).aircrafts_age) =
    if h ∈ ks then sweepPoint now maxAge (dlookup h c.aircrafts) (dlookup h c.aircrafts_age)
    else (dlookup h c.aircrafts, dlookup h c.aircrafts_age) := by
  induction ks generalizing c with
  | nil => simp [List.foldl]
  | cons k ks ih =>
    simp only [List.foldl_cons]
    rw [ih]
    by_cases hk : h = k
    · subst hk
      have hself := sweepStep_lookup_self now maxAge c h
      have h1 : dlookup h (sweepStep now maxAge c h).aircrafts =
          (sweepPoint now maxAge (dlookup h c.aircrafts) (dlookup h c.aircrafts_age)).1 := by
        rw [← hself]
      have h2 : dlookup h (sweepStep now maxAge c h).aircrafts_age =
          (sweepPoint now maxAge (dlookup h c.aircrafts) (dlookup h c.aircrafts_age)).2 := by
        rw [← hself]
      by_cases hmem : h ∈ ks
      · simp only [hmem, if_pos, List.mem_cons, true_or]
        rw [h1, h2, sweepPoint_idem]
      · simp only [hmem, if_neg, not_false_iff, List.mem_cons, true_or, if_pos]
        rw [h1, h2]
    · have hother := sweepStep_lookup_other now maxAge c k h hk
      rw [hother.1, hother.2]
      by_cases hmem : h ∈ ks
      · have : h ∈ k :: ks := List.mem_cons_of_mem k hmem
        simp only [hmem, if_pos, this]
      · have : h ∉ k :: ks := by
          simp only [List.mem_cons, not_or]
          exact ⟨hk, hmem⟩
        simp only [hmem, if_neg, not_false_iff, this]

theorem sweep_lookup (c : Cache) (now maxAge : Int) (h : String) :
    (dlookup h (sweep c now maxAge).aircrafts,
     dlookup h (sweep c now maxAge).aircrafts_age) =
    sweepPoint now maxAge (dlookup h c.aircrafts) (dlookup h c.aircrafts_age) := by
  unfold sweep
  rw [sweepFold_lookup]
  by_cases hmem : h ∈ c.aircrafts_age.map Prod.fst
  · simp only [hmem, if_pos]
  · have hnone := dlookup_eq_none_of_not_mem_keys h c.aircrafts_age hmem
    simp only [hmem, if_neg, not_false_iff, hnone]
    cases hrec : dlookup h c.aircrafts with
    | none => simp [sweepPoint]
    | some r => simp [sweepPoint]

theorem snapshotEntry_tagHex (c : Cache) (now interval : Int) (h : String)
    (r : AircraftRecord) (e : SendEntry)
    (hok : snapshotEntry c now interval h r = Except.ok (some e)) : e.tagHex = h := by
  unfold snapshotEntry at hok
  split at hok
  · split at hok
    · simp at hok
    · split at hok
      · split at hok
        · simp only [Except.ok.injEq, Option.some.injEq] at hok
          rw [← hok]
        · simp at hok
      · simp at hok
  · simp at hok

theorem snapshotEntry_skip_missing (c : Cache) (now interval : Int) (h : String)
    (r : AircraftRecord)
    (hmiss : r.fields FieldName.callsign = none ∨ r.fields FieldName.squawk = none) :
    snapshotEntry c now interval h r = Except.ok none := by
  unfold snapshotEntry
  split
  · rename_i cv sv hcs hsq
    rcases hmiss with hm | hm
    · rw [hm] at hcs; cases hcs
    · rw [hm] at hsq; cases hsq
  · rfl

theorem snapshotEntry_skip_stale (c : Cache) (now interval : Int) (h : String)
    (r : AircraftRecord)
    (hst : now - (dlookup h c.aircrafts_age).getD 0 > interval) :
    snapshotEntry c now interval h r = Except.ok none := by
  unfold snapshotEntry
  split
  · rw [if_pos hst]
  · rfl

theorem snapshotGo_ok_mem (c : Cache) (now interval : Int)
    (l : List (String × AircraftRecord)) (b : List SendEntry) (e : SendEntry)
    (hok : snapshotGo c now interval l = Except.ok b) (he : e ∈ b) :
    ∃ h r, (h, r) ∈ l ∧ snapshotEntry c now interval h r = Except.ok (some e) := by
  induction l generalizing b with
  | nil =>
    simp only [snapshotGo, Except.ok.injEq] at hok
    rw [← hok] at he
    cases he
  | cons p rest ih =>
    unfold snapshotGo at hok
    split at hok
    · cases hok
    · obtain ⟨h, r, hmem, hent⟩ := ih b hok he
      exact ⟨h, r, List.mem_cons_of_mem p hmem, hent⟩
    · rename_i en hen
      split at hok
      · cases hok
      · rename_i b' hb'
        simp only [Except.ok.injEq] at hok
        rw [← hok] at he
        rcases List.mem_cons.mp he with heq | htl
        · refine ⟨p.1, p.2, List.mem_cons_self p rest, ?_⟩
          rw [hen, heq]
        · obtain ⟨h, r, hmem, hent⟩ := ih b' hb' htl
          exact ⟨h, r, List.mem_cons_of_mem p hmem, hent⟩

theorem snapshotGo_ne_ok_of_err (c : Cache) (now interval : Int)
    (l : List (String × AircraftRecord)) (h : String) (r : AircraftRecord)
    (hmem : (h, r) ∈ l)
    (herr : ∀ oe, snapshotEntry c now interval h r ≠ Except.ok oe) :
    ∀ b, snapshotGo c now interval l ≠ Except.ok b := by
  induction l with
  | nil => cases hmem
  | cons p rest ih =>
    intro b hok
    unfold snapshotGo at hok
    rcases List.mem_cons.mp hmem with heq | htl
    · split at hok
      · cases hok
      · rename_i hent
        rw [← heq] at hent
        exact herr none hent
      · rename_i en hent
        rw [← heq] at hent
        exact herr (some en) hent
    · split at hok
      · cases hok
      · exact ih htl b hok
      · split at hok
        · cases hok
        · rename_i b' hb'
          exact ih htl b' hb'

theorem normalizeMsg_ok_eq (g : FieldName → Option String) (m : ParsedFields)
    (hok : normalizeMsg g = Except.ok m) :
    m = fun f => (g f).bind (normalizeField f) := by
  unfold normalizeMsg at hok
  split at hok
  · simp only [Except.ok.injEq] at hok
    rw [← hok]
  · cases hok

theorem normalizeMsg_err_eq (g : FieldName → Option String) (e : AdsbErr)
    (herr : normalizeMsg g = Except.error e) : e = AdsbErr.valueError := by
  unfold normalizeMsg at herr
  split at herr
  · cases herr
  · simp only [Except.error.injEq] at herr
    rw [← herr]

theorem mergeMsg_ok_shape (c : Cache) (now : Int) (m : ParsedFields) (c' : Cache)
    (hok : mergeMsg c now m = Except.ok c') :
    ∃ hex rec, m FieldName.hexident = some (PValue.str hex) ∧
      c'.aircrafts = dinsert hex rec c.aircrafts ∧
      c'.aircrafts_age = dinsert hex now c.aircrafts_age := by
  unfold mergeMsg at hok
  split at hok
  · rename_i hex hhex
    split at hok
    · simp only [Except.ok.injEq] at hok
      exact ⟨hex, { fields := m, count := 1 }, hhex, by rw [← hok], by rw [← hok]⟩
    · rename_i r hr
      simp only [Except.ok.injEq] at hok
      exact ⟨hex, { fields := mergeFields r.fields m, count := r.count + 1 }, hhex,
             by rw [← hok], by rw [← hok]⟩
  · cases hok

theorem mergeMsg_eq_insert (c : Cache) (now : Int) (m : ParsedFields) (hex : String)
    (hhex : m FieldName.hexident = some (PValue.str hex))
    (hold : dlookup hex c.aircrafts = none) :
    mergeMsg c now m = Except.ok
      { aircrafts := dinsert hex { fields := m, count := 1 } c.aircrafts,
        aircrafts_age := dinsert hex now c.aircrafts_age } := by
  unfold mergeMsg
  rw [hhex]
  dsimp only
  rw [hold]

theorem mergeMsg_eq_update (c : Cache) (now : Int) (m : ParsedFields) (hex : String)
    (r : AircraftRecord)
    (hhex : m FieldName.hexident = some (PValue.str hex))
    (hold : dlookup hex c.aircrafts = some r) :
    mergeMsg c now m = Except.ok
      { aircrafts := dinsert hex { fields := mergeFields r.fields m,
                                   count := r.count + 1 } c.aircrafts,
        aircrafts_age := dinsert hex now c.aircrafts_age } := by
  unfold mergeMsg
  rw [hhex]
  dsimp only
  rw [hold]

/-- C1: the claim states that a flag whose raw token is `-1` normalizes to
true and serializes as `t`, and any other token normalizes to false and
serializes as `f`. The normalization half holds, but `InfluxDB.write`
compares the already-normalized boolean against `-1` (`'t' if v == -1
else 'f'`), and a Python `bool` equals `1` or `0`, never `-1` — so every
boolean, the `-1`-derived `True` included, is serialized as `f`. This
theorem evaluates the embedded code at the failing input. -/
theorem c1_bool_flag_serialization :
    normalizeField FieldName.alert "-1" = some (PValue.bool true) ∧
    normalizeField FieldName.alert "0" = some (PValue.bool false) ∧
    serializeFieldKV "alert" (PValue.bool true) = "alert=f" ∧
    serializeFieldKV "alert" (PValue.bool false) = "alert=f" ∧
    serializeFields [("alert", some (PValue.bool true)), ("spi", none)] = ["alert=f"] := by
  refine ⟨rfl, rfl, ?_, ?_, ?_⟩ <;> decide

/-- C3: a line that does not match the full message grammar makes
`AdsbProcessor.msg` raise the malformed-message error before any mutation,
so both the record map and the age map are returned exactly as they were. -/
theorem c3_malformed_unchanged (c : Cache) (now : Int) (line : String)
    (hbad : matchGroups line = none) :
    msgRun c now line = (some (AdsbErr.malformed line), c) := by
  unfold msgRun parseRaw
  rw [hbad]
  rfl

/-- C3 witness at a concrete junk line and a concrete cache. -/
theorem c3_malformed_unchanged_witness :
    msgRun cacheEmpty 3 lineJunk = (some (AdsbErr.malformed lineJunk), cacheEmpty) :=
  c3_malformed_unchanged cacheEmpty 3 lineJunk (by rfl)

/-- C2: for any parsed-fields map containing a hex identity, the merge
always succeeds; it sets the age entry of that identity to now, leaves
every other identity untouched in both maps, inserts a fresh record equal
to the fields with count 1 when the identity is new, and otherwise
overwrites exactly the keys present in the new fields, preserves all
other stored keys, and increments count by one. -/
theorem c2_merge_semantics (c : Cache) (now : Int) (m : ParsedFields) (hex : String)
    (hhex : m FieldName.hexident = some (PValue.str hex)) :
    exceptIsOk (mergeMsg c now m) = true ∧
    ∀ c', mergeMsg c now m = Except.ok c' →
      dlookup hex c'.aircrafts_age = some now ∧
      (∀ h', h' ≠ hex →
        dlookup h' c'.aircrafts_age = dlookup h' c.aircrafts_age ∧
        dlookup h' c'.aircrafts = dlookup h' c.aircrafts) ∧
      (dlookup hex c.aircrafts = none →
        dlookup hex c'.aircrafts = some { fields := m, count := 1 }) ∧
      (∀ r, dlookup hex c.aircrafts = some r →
        ∃ r', dlookup hex c'.aircrafts = some r' ∧
          r'.count = r.count + 1 ∧
          (∀ f v, m f = some v → r'.fields f = some v) ∧
          (∀ f, m f = none → r'.fields f = r.fields f)) := by
  cases hold : dlookup hex c.aircrafts with
  | none =>
    have heq := mergeMsg_eq_insert c now m hex hhex hold
    constructor
    · rw [heq]
      rfl
    · intro c' hc'
      rw [heq] at hc'
      simp only [Except.ok.injEq] at hc'
      rw [← hc']
      refine ⟨dlookup_dinsert_self hex now c.aircrafts_age, ?_, ?_, ?_⟩
      · intro h' hne
        exact ⟨dlookup_dinsert_ne hex h' now c.aircrafts_age hne,
               dlookup_dinsert_ne hex h' _ c.aircrafts hne⟩
      · intro _
        exact dlookup_dinsert_self hex _ c.aircrafts
      · intro r hr
        exact Option.noConfusion hr
  | some r0 =>
    have heq := mergeMsg_eq_update c now m hex r0 hhex hold
    constructor
    · rw [heq]
      rfl
    · intro c' hc'
      rw [heq] at hc'
      simp only [Except.ok.injEq] at hc'
      rw [← hc']
      refine ⟨dlookup_dinsert_self hex now c.aircrafts_age, ?_, ?_, ?_⟩
      · intro h' hne
        exact ⟨dlookup_dinsert_ne hex h' now c.aircrafts_age hne,
               dlookup_dinsert_ne hex h' _ c.aircrafts hne⟩
      · intro hnone
        exact Option.noConfusion hnone
      · intro r hr
        injection hr with hr0
        refine ⟨{ fields := mergeFields r0.fields m, count := r0.count + 1 },
                dlookup_dinsert_self hex _ c.aircrafts, ?_, ?_, ?_⟩
        · rw [hr0]
        · intro f v hf
          unfold mergeFields
          dsimp only
          rw [hf]
        · intro f hf
          unfold mergeFields
          dsimp only
          rw [hf, hr0]

/-- C2 witness: merging a concrete fields map into the empty cache. -/
theorem c2_merge_semantics_witness :
    exceptIsOk (mergeMsg cacheEmpty 7 mEx) = true :=
  (c2_merge_semantics cacheEmpty 7 mEx "ABC123" rfl).1

/-- C7: the count reset (the second loop of `AdsbProcessor.clear`) sets
count to 0 in exactly the records that survive the sweep, changes no
other record component, and leaves the age map of the sweep result
untouched. -/
theorem c7_reset_counts (c : Cache) (now maxAge : Int) :
    (clearOp c now maxAge).aircrafts_age = (sweep c now maxAge).aircrafts_age ∧
    ∀ h, dlookup h (clearOp c now maxAge).aircrafts =
      (dlookup h (sweep c now maxAge).aircrafts).map
        (fun r => { fields := r.fields, count := 0 }) := by
  constructor
  · rfl
  · intro h
    unfold clearOp resetCounts
    dsimp only
    exact dlookup_map_val
      (fun r : AircraftRecord => ({ fields := r.fields, count := 0 } : AircraftRecord)) h
      (sweep c now maxAge).aircrafts

theorem sweep_lookup_air (c : Cache) (now maxAge : Int) (h : String) :
    dlookup h (sweep c now maxAge).aircrafts =
    (sweepPoint now maxAge (dlookup h c.aircrafts) (dlookup h c.aircrafts_age)).1 :=
  congrArg Prod.fst (sweep_lookup c now maxAge h)

theorem sweep_lookup_age (c : Cache) (now maxAge : Int) (h : String) :
    dlookup h (sweep c now maxAge).aircrafts_age =
    (sweepPoint now maxAge (dlookup h c.aircrafts) (dlookup h c.aircrafts_age)).2 :=
  congrArg Prod.snd (sweep_lookup c now maxAge h)

/-- C4: after the expiry sweep with threshold `maxAge`, a hex identity
whose age exceeds the threshold is absent from both maps, an age entry
with no corresponding record is dropped from the age map, and an aircraft
whose age is within the threshold keeps both of its entries unchanged.
The hypothesis is the lock-step invariant at the inspected identity (a
record implies an age entry), which every reachable state satisfies. -/
theorem c4_sweep_expiry (c : Cache) (now maxAge : Int) (h : String)
    (hinv : (dlookup h c.aircrafts).isSome = true →
            (dlookup h c.aircrafts_age).isSome = true) :
    (ageOf c now h > maxAge →
      dlookup h (sweep c now maxAge).aircrafts = none ∧
      dlookup h (sweep c now maxAge).aircrafts_age = none) ∧
    (dlookup h c.aircrafts = none →
      dlookup h (sweep c now maxAge).aircrafts_age = none) ∧
    ((dlookup h c.aircrafts).isSome = true → ageOf c now h ≤ maxAge →
      dlookup h (sweep c now maxAge).aircrafts = dlookup h c.aircrafts ∧
      dlookup h (sweep c now maxAge).aircrafts_age = dlookup h c.aircrafts_age) := by
  have hA := sweep_lookup_air c now maxAge h
  have hG := sweep_lookup_age c now maxAge h
  refine ⟨?_, ?_, ?_⟩
  · intro hage
    cases hag : dlookup h c.aircrafts_age with
    | some t =>
      have hgt : now - t > maxAge := by
        unfold ageOf at hage
        rw [hag] at hage
        exact hage
      cases hrec : dlookup h c.aircrafts with
      | some r =>
        rw [hag, hrec] at hA hG
        rw [show sweepPoint now maxAge (some r) (some t) = (none, none) by
          simp [sweepPoint, hgt]] at hA hG
        exact ⟨hA, hG⟩
      | none =>
        rw [hag, hrec] at hA hG
        exact ⟨hA, hG⟩
    | none =>
      cases hrec : dlookup h c.aircrafts with
      | some r =>
        exfalso
        have hcontra := hinv (by rw [hrec]; rfl)
        rw [hag] at hcontra
        exact Bool.noConfusion hcontra
      | none =>
        rw [hag, hrec] at hA hG
        exact ⟨hA, hG⟩
  · intro hrec
    rw [hrec] at hG
    exact hG
  · intro hrecS hage
    obtain ⟨r, hrec⟩ := Option.isSome_iff_exists.mp hrecS
    obtain ⟨t, hag⟩ := Option.isSome_iff_exists.mp (hinv hrecS)
    have hle : ¬(now - t > maxAge) := by
      unfold ageOf at hage
      rw [hag] at hage
      exact not_lt.mpr hage
    rw [hrec, hag] at hA hG
    rw [show sweepPoint now maxAge (some r) (some t) = (some r, some t) by
      simp [sweepPoint, hle]] at hA hG
    exact ⟨hA.trans hrec.symm, hG.trans hag.symm⟩

/-- C4 witness: in a concrete cache swept at now = 100 with threshold 20,
the stale aircraft is gone from both maps, the orphaned age entry is
dropped, and the fresh aircraft is untouched. -/
theorem c4_sweep_expiry_witness :
    dlookup "OLD1" (sweep cacheFour 100 20).aircrafts = none ∧
    dlookup "OLD1" (sweep cacheFour 100 20).aircrafts_age = none ∧
    dlookup "ORPH" (sweep cacheFour 100 20).aircrafts_age = none ∧
    dlookup "NEW1" (sweep cacheFour 100 20).aircrafts = dlookup "NEW1" cacheFour.aircrafts ∧
    dlookup "NEW1" (sweep cacheFour 100 20).aircrafts_age =
      dlookup "NEW1" cacheFour.aircrafts_age := by
  have hOld := (c4_sweep_expiry cacheFour 100 20 "OLD1" (by decide)).1 (by decide)
  have hOrph := (c4_sweep_expiry cacheFour 100 20 "ORPH" (by decide)).2.1 (by decide)
  have hNew := (c4_sweep_expiry cacheFour 100 20 "NEW1" (by decide)).2.2 (by decide) (by decide)
  exact ⟨hOld.1, hOld.2, hOrph, hNew.1, hNew.2⟩

theorem lockstep_applyOp (c : Cache) (op : CacheOp) (hc : lockstep c) :
    lockstep (applyOp c op) := by
  cases op with
  | msg now line =>
    show lockstep (msgRun c now line).2
    unfold msgRun
    cases hp : parseRaw line with
    | none => exact hc
    | some g =>
      dsimp only
      cases hn : normalizeMsg g with
      | error e => exact hc
      | ok m =>
        dsimp only
        cases hmg : mergeMsg c now m with
        | error e => exact hc
        | ok c' =>
          obtain ⟨hex, rec, hhex, hair, hage⟩ := mergeMsg_ok_shape c now m c' hmg
          show lockstep c'
          intro h hrec
          by_cases heq : h = hex
          · subst heq
            rw [hage, dlookup_dinsert_self]
            rfl
          · rw [hage, dlookup_dinsert_ne hex h now c.aircrafts_age heq]
            apply hc
            rw [hair, dlookup_dinsert_ne hex h rec c.aircrafts heq] at hrec
            exact hrec
  | clear now maxAge =>
    show lockstep (clearOp c now maxAge)
    have hsw : lockstep (sweep c now maxAge) := by
      intro h hrec
      have hA := sweep_lookup_air c now maxAge h
      have hG := sweep_lookup_age c now maxAge h
      cases hag : dlookup h c.aircrafts_age with
      | some t =>
        cases hrc : dlookup h c.aircrafts with
        | some r =>
          rw [hag, hrc] at hA hG
          by_cases hst : now - t > maxAge
          · rw [show sweepPoint now maxAge (some r) (some t) = (none, none) by
              simp [sweepPoint, hst]] at hA
            rw [hA] at hrec
            exact Bool.noConfusion hrec
          · rw [show sweepPoint now maxAge (some r) (some t) = (some r, some t) by
              simp [sweepPoint, hst]] at hG
            rw [hG]
            rfl
        | none =>
          rw [hag, hrc] at hA
          rw [hA] at hrec
          exact Bool.noConfusion hrec
      | none =>
        cases hrc : dlookup h c.aircrafts with
        | some r =>
          exfalso
          have hcontra := hc h (by rw [hrc]; rfl)
          rw [hag] at hcontra
          exact Bool.noConfusion hcontra
        | none =>
          rw [hag, hrc] at hA
          rw [hA] at hrec
          exact Bool.noConfusion hrec
    intro h hrec
    unfold clearOp resetCounts at hrec ⊢
    dsimp only at hrec ⊢
    rw [dlookup_map_val
      (fun r : AircraftRecord => ({ fields := r.fields, count := 0 } : AircraftRecord)) h
      (sweep c now maxAge).aircrafts] at hrec
    cases hx : dlookup h (sweep c now maxAge).aircrafts with
    | none =>
      rw [hx] at hrec
      exact Bool.noConfusion hrec
    | some r => exact hsw h (by rw [hx]; rfl)

theorem lockstep_foldl (l : List CacheOp) (c : Cache) (hc : lockstep c) :
    lockstep (l.foldl applyOp c) := by
  induction l generalizing c with
  | nil => exact hc
  | cons op rest ih => exact ih (applyOp c op) (lockstep_applyOp c op hc)

/-- C9: the two cache maps stay in lock-step: after any sequence of
parsed-message merges and clears starting from the empty cache, every hex
identity present in the record map also has an entry in the age map. -/
theorem c9_lockstep (ops : List CacheOp) (h : String)
    (hrec : (dlookup h (runOps ops).aircrafts).isSome = true) :
    (dlookup h (runOps ops).aircrafts_age).isSome = true := by
  have hls : lockstep (runOps ops) := by
    unfold runOps
    apply lockstep_foldl
    intro h0 hcontra
    exact Bool.noConfusion hcontra
  exact hls h hrec

/-- C9 witness: after merging a concrete feed line and clearing, the
age map tracks the merged identity. -/
theorem c9_lockstep_witness :
    (dlookup "ABC123" (runOps opsEx).aircrafts_age).isSome = true :=
  c9_lockstep opsEx "ABC123" (by rfl)

theorem matchGroups_pattern (line : String) (ga : FieldName → String) (f : FieldName)
    (hm : matchGroups line = some ga) (hf : f ∈ fieldList) :
    fieldPattern f (ga f) = true := by
  unfold matchGroups at hm
  dsimp only at hm
  split at hm
  · rename_i hguard
    simp only [Bool.and_eq_true, List.all_eq_true] at hguard
    simp only [Option.some.injEq] at hm
    subst hm
    exact hguard.2 f hf
  · exact Option.noConfusion hm

theorem someChars_ne_empty (p : Char → Bool) (s : String)
    (h : someChars p s = true) : s ≠ "" := by
  intro hs
  subst hs
  exact Bool.noConfusion h

/-- C8: for every line accepted by the grammar, the raw hex identity is
non-empty (its group has `+` arity), the parsed map omits every field
whose raw token was empty and keeps the hex identity verbatim, and as a
consequence `AdsbProcessor.msg` can never fail its `message['hexident']`
lookup during the cache merge. -/
theorem c8_parsed_fields (line : String) (ga : FieldName → String)
    (hm : matchGroups line = some ga) :
    ga FieldName.hexident ≠ "" ∧
    (∀ g, parseRaw line = some g →
      g FieldName.hexident = some (ga FieldName.hexident) ∧
      ∀ f, ga f = "" → g f = none) ∧
    ∀ (c : Cache) (now : Int), (msgRun c now line).1 ≠ some AdsbErr.keyError := by
  have hne : ga FieldName.hexident ≠ "" :=
    someChars_ne_empty isUpHex (ga FieldName.hexident)
      (matchGroups_pattern line ga FieldName.hexident hm (by decide))
  have hp : parseRaw line = some (fun f => if ga f = "" then none else some (ga f)) := by
    unfold parseRaw
    rw [hm]
    rfl
  refine ⟨hne, ?_, ?_⟩
  · intro g hg
    rw [hp] at hg
    simp only [Option.some.injEq] at hg
    subst hg
    constructor
    · exact if_neg hne
    · intro f hf
      exact if_pos hf
  · intro c now
    unfold msgRun
    rw [hp]
    dsimp only
    cases hn : normalizeMsg (fun f => if ga f = "" then none else some (ga f)) with
    | error e =>
      dsimp only
      intro hcontra
      simp only [Option.some.injEq] at hcontra
      rw [normalizeMsg_err_eq _ e hn] at hcontra
      exact AdsbErr.noConfusion hcontra
    | ok m =>
      dsimp only
      have hmx : m FieldName.hexident = some (PValue.str (ga FieldName.hexident)) := by
        rw [normalizeMsg_ok_eq _ m hn]
        dsimp only
        rw [if_neg hne]
        rfl
      cases hmg : mergeMsg c now m with
      | error e =>
        exfalso
        cases hold : dlookup (ga FieldName.hexident) c.aircrafts with
        | none =>
          rw [mergeMsg_eq_insert c now m _ hmx hold] at hmg
          exact Except.noConfusion hmg
        | some r =>
          rw [mergeMsg_eq_update c now m _ r hmx hold] at hmg
          exact Except.noConfusion hmg
      | ok c' =>
        dsimp only
        intro hcontra
        exact Option.noConfusion hcontra

/-- C8 witness: the concrete well-formed line has a non-empty hex
identity group. -/
theorem c8_parsed_fields_witness : gaGood FieldName.hexident ≠ "" :=
  (c8_parsed_fields lineGood gaGood (by rfl)).1

/-- C5: a record lacking both callsign and squawk, or whose age exceeds
the emission interval, never appears in the serialized batch of an
emission cycle (entries are keyed by their hexident tag; the duplicate-free
key list is a dict well-formedness fact). -/
theorem c5_snapshot_filtering (c : Cache) (now interval : Int)
    (b : List SendEntry) (h : String) (r : AircraftRecord)
    (hnd : (c.aircrafts.map Prod.fst).Nodup)
    (hok : snapshot c now interval = Except.ok b)
    (hr : dlookup h c.aircrafts = some r)
    (hskip : (r.fields FieldName.callsign = none ∧ r.fields FieldName.squawk = none) ∨
             now - (dlookup h c.aircrafts_age).getD 0 > interval) :
    ∀ e ∈ b, e.tagHex ≠ h := by
  intro e he heq
  obtain ⟨h', r', hmem', hent⟩ :=
    snapshotGo_ok_mem c now interval c.aircrafts b e hok he
  have hhex := snapshotEntry_tagHex c now interval h' r' e hent
  rw [heq] at hhex
  subst hhex
  have hll := dlookup_of_mem_nodup h r' c.aircrafts hnd hmem'
  rw [hr] at hll
  injection hll with hrr
  subst hrr
  rcases hskip with ⟨hc1, _⟩ | hstale
  · rw [snapshotEntry_skip_missing c now interval h r (Or.inl hc1)] at hent
    simp at hent
  · rw [snapshotEntry_skip_stale c now interval h r hstale] at hent
    simp at hent

/-- C5 witness: in the concrete snapshot, the emitted entry is neither
the no-identity aircraft nor the stale aircraft. -/
theorem c5_snapshot_filtering_witness :
    entryFive.tagHex ≠ "NOCS" ∧ entryFive.tagHex ≠ "STALE" := by
  constructor
  · exact c5_snapshot_filtering cacheFive 100 60 batchFive "NOCS" recNoCS (by decide)
      (by rfl) (by rfl) (Or.inl ⟨rfl, rfl⟩) entryFive (by decide)
  · exact c5_snapshot_filtering cacheFive 100 60 batchFive "STALE" recGood (by decide)
      (by rfl) (by rfl) (Or.inr (by decide)) entryFive (by decide)

/-- C10: a record is serialized only when it has both a callsign and a
squawk; one lacking either of the two (in particular exactly one) never
appears in the batch. -/
theorem c10_requires_callsign_and_squawk (c : Cache) (now interval : Int)
    (b : List SendEntry) (h : String) (r : AircraftRecord)
    (hnd : (c.aircrafts.map Prod.fst).Nodup)
    (hok : snapshot c now interval = Except.ok b)
    (hr : dlookup h c.aircrafts = some r)
    (hmiss : r.fields FieldName.callsign = none ∨ r.fields FieldName.squawk = none) :
    ∀ e ∈ b, e.tagHex ≠ h := by
  intro e he heq
  obtain ⟨h', r', hmem', hent⟩ :=
    snapshotGo_ok_mem c now interval c.aircrafts b e hok he
  have hhex := snapshotEntry_tagHex c now interval h' r' e hent
  rw [heq] at hhex
  subst hhex
  have hll := dlookup_of_mem_nodup h r' c.aircrafts hnd hmem'
  rw [hr] at hll
  injection hll with hrr
  subst hrr
  rw [snapshotEntry_skip_missing c now interval h r hmiss] at hent
  simp at hent

/-- C10 witness: the aircraft with a callsign but no squawk is skipped;
the emitted entry belongs to the other aircraft. -/
theorem c10_requires_callsign_and_squawk_witness :
    entryTen.tagHex ≠ "ONLYCS" :=
  c10_requires_callsign_and_squawk cacheTen 100 60 batchTen "ONLYCS" recOnlyCS (by decide)
    (by rfl) (by rfl) (Or.inr rfl) entryTen (by decide)

theorem snapshotEntry_err_of_bad (c : Cache) (now interval : Int) (h : String)
    (r : AircraftRecord)
    (hcs : (r.fields FieldName.callsign).isSome = true)
    (hsq : (r.fields FieldName.squawk).isSome = true)
    (hage : now - (dlookup h c.aircrafts_age).getD 0 ≤ interval)
    (hbad : genTs r = none) :
    ∀ oe, snapshotEntry c now interval h r ≠ Except.ok oe := by
  intro oe
  obtain ⟨cv, hcv⟩ := Option.isSome_iff_exists.mp hcs
  obtain ⟨sv, hsv⟩ := Option.isSome_iff_exists.mp hsq
  unfold snapshotEntry
  rw [hcv, hsv]
  dsimp only
  rw [if_neg (not_lt.mpr hage)]
  unfold genTs at hbad
  cases hgd : r.fields FieldName.gen_date with
  | none =>
    intro hcontra
    exact Except.noConfusion hcontra
  | some dv =>
    cases hgt : r.fields FieldName.gen_time with
    | none =>
      intro hcontra
      exact Except.noConfusion hcontra
    | some tv =>
      rw [hgd, hgt] at hbad
      dsimp only at hbad
      dsimp only
      rw [hbad]
      intro hcontra
      exact Except.noConfusion hcontra

/-- C6, counterexample to the claim as stated: in the reachable cache
`cacheSix`, the `BAD001` record passes the callsign/squawk and age
filters but its generated date `////` is unparsable, and the whole
emission cycle aborts with an error — so the qualifying `ABC123` record,
which on its own would serialize fine, is not emitted either, instead of
only the single bad record being skipped. -/
theorem c6_single_skip_counterexample :
    snapshot cacheSix 7 60 = Except.error SnapErr.badTimestamp ∧
    ((dlookup "ABC123" cacheSix.aircrafts).elim false
      (fun r => isOkSome (snapshotEntry cacheSix 7 60 "ABC123" r))) = true ∧
    ((dlookup "BAD001" cacheSix.aircrafts).elim false
      (fun r => (r.fields FieldName.callsign).isSome
        && (r.fields FieldName.squawk).isSome
        && decide (7 - (dlookup "BAD001" cacheSix.aircrafts_age).getD 0 ≤ 60)
        && (genTs r).isNone)) = true :=
  ⟨rfl, rfl, rfl⟩

/-- C6 as amended: when a cache entry passes the callsign/squawk and age
filters but its generated date/time cannot be parsed, the whole emission
cycle aborts: no batch at all is produced for that cycle (the uncaught
error propagates), rather than only that record being skipped. -/
theorem c6_cycle_aborts (c : Cache) (now interval : Int) (h : String)
    (r : AircraftRecord)
    (hmem : (h, r) ∈ c.aircrafts)
    (hcs : (r.fields FieldName.callsign).isSome = true)
    (hsq : (r.fields FieldName.squawk).isSome = true)
    (hage : now - (dlookup h c.aircrafts_age).getD 0 ≤ interval)
    (hbad : genTs r = none) :
    ∀ b, snapshot c now interval ≠ Except.ok b :=
  snapshotGo_ne_ok_of_err c now interval c.aircrafts h r hmem
    (snapshotEntry_err_of_bad c now interval h r hcs hsq hage hbad)

/-- C6 witness: the concrete aborted cycle produces no batch. -/
theorem c6_cycle_aborts_witness : snapshot cacheSix 7 60 ≠ Except.ok [] :=
  c6_cycle_aborts cacheSix 7 60 "BAD001" recBadSix (by exact List.Mem.head _)
    (by rfl) (by rfl) (by decide) (by rfl) []
